import Mathlib

/-!
Shallow embedding of the rlget downloader (rate-limited parallel file
downloader) and verification of its specification claims.

The embedding follows the Python sources:
  * rlget/utils.py         : guess_filename, sanitize_filename, dedupe_path
  * rlget/rate_limiter.py  : RateLimiter (token bucket over rational time)
  * rlget/downloader.py    : DownloadManager (_download_one retry loop,
                             _sleep_backoff, download_many)

Python floats are modelled as rationals; machine time is an explicit
rational parameter; the network is an oracle assigning to each attempt
number the outcome of that attempt; the filesystem is a snapshot list of
existing path names.
-/

set_option linter.unusedVariables false

namespace Rlget

/-! ### utils.py: character helpers -/

/-- The single-quote character, written via its code point. -/
def squote : Char := Char.ofNat 39

/-- Characters removed by `re.sub` in `sanitize_filename`
(the Windows-illegal set from utils.py line 58). -/
def BAD_CHARS : List Char := ['\\', '/', ':', '*', '?', '"', '<', '>', '|']

/-- Whitespace stripped by Python `str.strip()` (ASCII subset; the exotic
Unicode whitespace classes are never produced by the modelled inputs). -/
def isPySpace (c : Char) : Bool :=
  c == ' ' || c == '\t' || c == '\n' || c == '\r' ||
    c == Char.ofNat 11 || c == Char.ofNat 12

/-- Python `s.strip()` on a character list. -/
def pyStripList (l : List Char) : List Char :=
  ((l.dropWhile isPySpace).reverse.dropWhile isPySpace).reverse

/-- One step of `.replace("\n", " ").replace("\r", " ")` from utils.py line 57. -/
def replaceNL (c : Char) : Char :=
  if c == '\n' || c == '\r' then ' ' else c

/-- One step of `re.sub(r'[\\/:*?"<>|]', "_", name)` from utils.py line 58. -/
def sanitizeChar (c : Char) : Char :=
  if c ∈ BAD_CHARS then '_' else c

/-- utils.py `sanitize_filename`: strip, blank out newlines, replace the
illegal characters with underscore, and fall back to "download" when the
result is empty. -/
def sanitize_filename (name : String) : String :=
  let l := ((pyStripList name.data).map replaceNL).map sanitizeChar
  if l.isEmpty then ("download") else ⟨l⟩

/-! ### utils.py: percent decoding (urllib.parse.unquote)

`unquote` decodes each valid `%hh` escape; invalid escapes are kept
verbatim.  Python reassembles multi-byte UTF-8 sequences from consecutive
escapes; the claims only exercise single-byte (ASCII) escapes, so each
decoded byte is mapped directly to the character with that code point. -/

/-- Value of one hexadecimal digit, if any. -/
def hexDigitVal (c : Char) : Option Nat :=
  if '0' ≤ c ∧ c ≤ '9' then some (c.toNat - 48)
  else if 'a' ≤ c ∧ c ≤ 'f' then some (c.toNat - 87)
  else if 'A' ≤ c ∧ c ≤ 'F' then some (c.toNat - 55)
  else none

/-- urllib.parse.unquote on a character list. -/
def unquoteList : List Char → List Char
  | [] => []
  | '%' :: a :: b :: t =>
    (match hexDigitVal a, hexDigitVal b with
     | some d1, some d2 => Char.ofNat (16 * d1 + d2) :: unquoteList t
     | _, _ => '%' :: unquoteList (a :: b :: t))
  | c :: t => c :: unquoteList t

/-! ### utils.py: the Content-Disposition regex

The pattern (utils.py lines 14-17, compiled with IGNORECASE) is

  filename\*=.*''([^;]+)|filename="?([^\";]+)"?

`re.search` scans positions left to right; at each position the first
alternative is tried before the second.  `.` does not match a newline,
`.*` is greedy (so the rightmost admissible quote pair is used), and the
two capturing groups both require at least one character. -/

/-- Case-insensitive literal-prefix test (the pattern text is lowercase). -/
def startsWithCI : List Char → List Char → Bool
  | [], _ => true
  | _ :: _, [] => false
  | p :: ps, c :: cs => p == c.toLower && startsWithCI ps cs

/-- Does position `i` of `rest` carry `''` followed by a non-`;` character
(the requirement for the tail `''([^;]+)` of the first alternative)? -/
def qqValid (rest : List Char) (i : Nat) : Bool :=
  ((rest.drop i).take 2 == [squote, squote]) &&
    (match rest.drop (i + 2) with
     | c :: _ => c != ';'
     | [] => false)

/-- First alternative `filename\*=.*''([^;]+)` at the current position:
after the literal, the greedy `.*` selects the rightmost `''` whose prefix
is newline-free, and the group is the maximal `;`-free run after it. -/
def matchAlt1 (s : List Char) : Option (List Char) :=
  if startsWithCI ("filename*=").data s then
    let rest := s.drop 10
    let lim := (rest.takeWhile (· != '\n')).length
    match (List.range (lim + 1)).foldl
        (fun acc i => if qqValid rest i then some i else acc) none with
    | some i => some ((rest.drop (i + 2)).takeWhile (· != ';'))
    | none => none
  else none

/-- Second alternative `filename="?([^\";]+)"?` at the current position:
an optional opening quote, then a maximal nonempty run free of `"` and
`;` (taking the quote and then failing cannot be repaired by backtracking,
since the group may not start with `"`). -/
def matchAlt2 (s : List Char) : Option (List Char) :=
  if startsWithCI ("filename=").data s then
    let rest := s.drop 9
    let rest2 := match rest with
      | c :: t => if c == '"' then t else c :: t
      | [] => ([] : List Char)
    match rest2 with
    | c :: _ =>
      if c == '"' || c == ';' then none
      else some (rest2.takeWhile (fun d => !(d == '"' || d == ';')))
    | [] => none
  else none

/-- Model of `re.search` with the filename pattern: leftmost position wins, and at
each position the first alternative is preferred. -/
def searchFilename : List Char → Option (List Char)
  | [] => none
  | c :: t =>
    match matchAlt1 (c :: t) with
    | some g => some g
    | none =>
      match matchAlt2 (c :: t) with
      | some g => some g
      | none => searchFilename t

/-! ### utils.py: URL path extraction (urllib.parse.urlparse(url).path) -/

/-- Characters allowed in a URL scheme (urllib's scheme_chars). -/
def SCHEME_CHARS : List Char :=
  ("abcdefghijklmnopqrstuvwxyzABCDEFGHIJKLMNOPQRSTUVWXYZ0123456789+-.").data

/-- First index of `c` in `l` at or after `start` (Python `str.find`). -/
def idxOfFrom (l : List Char) (c : Char) (start : Nat) : Option Nat :=
  match (l.drop start).findIdx? (· == c) with
  | some k => some (start + k)
  | none => none

/-- Last index of `c` in `l` (Python `str.rfind`). -/
def rfindIdx (l : List Char) (c : Char) : Option Nat :=
  match l.reverse.findIdx? (· == c) with
  | some k => some (l.length - 1 - k)
  | none => none

/-- urlsplit removes tab, carriage return and newline from the URL. -/
def removeUnsafe (l : List Char) : List Char :=
  l.filter (fun c => !(c == '\t' || c == '\r' || c == '\n'))

/-- Leading C0-control-or-space strip performed by urlsplit. -/
def lstripControl (l : List Char) : List Char :=
  l.dropWhile (fun c => c.toNat ≤ 32)

/-- Is the head an ASCII letter (urlsplit's scheme precondition)? -/
def headIsAsciiAlpha : List Char → Bool
  | c :: _ => c.isAlpha
  | [] => false

/-- Drop a leading `scheme:` when the prefix before the first `:` is a
valid scheme (urlsplit). -/
def stripScheme (l : List Char) : List Char :=
  match l.findIdx? (· == ':') with
  | some i =>
    if 0 < i && headIsAsciiAlpha l && (l.take i).all (fun c => SCHEME_CHARS.contains c)
    then l.drop (i + 1) else l
  | none => l

/-- Drop a leading `//netloc` up to the first `/`, `?` or `#` (urlsplit's
`_splitnetloc`).  CPython additionally raises ValueError("Invalid IPv6
URL") when the netloc has an unmatched bracket; that raising branch is
modelled by `urlsplitInvalidIPv6` below and assumed absent where a
derived filename is claimed to exist. -/
def stripNetloc (l : List Char) : List Char :=
  match l with
  | '/' :: '/' :: rest => rest.dropWhile (fun c => !(c == '/' || c == '?' || c == '#'))
  | _ => l

/-- The netloc that urlsplit would inspect for the bracket check. -/
def netlocOf (url : String) : List Char :=
  let u := lstripControl url.data
  let u := removeUnsafe u
  let u := stripScheme u
  match u with
  | '/' :: '/' :: rest => rest.takeWhile (fun c => !(c == '/' || c == '?' || c == '#'))
  | _ => []

/-- Does urlsplit raise ValueError("Invalid IPv6 URL") for this URL?
CPython: an unmatched `[` or `]` in the netloc aborts parsing, so
`guess_filename` raises instead of returning a name on its URL branch. -/
def urlsplitInvalidIPv6 (url : String) : Bool :=
  let n := netlocOf url
  (n.contains '[' && !(n.contains ']')) || (n.contains ']' && !(n.contains '['))

/-- Function `urlparse` additionally splits `;params` off the last path segment
(`_splitparams`, applied only when the path contains `;`). -/
def splitParams (p : List Char) : List Char :=
  if p.contains ';' then
    if p.contains '/' then
      match rfindIdx p '/' with
      | some j =>
        match idxOfFrom p ';' j with
        | some i => p.take i
        | none => p
      | none => p
    else p.takeWhile (· != ';')
  else p

/-- Model of `urllib.parse.urlparse(url).path` as used by `guess_filename`. -/
def urlparsePath (url : String) : List Char :=
  let u := lstripControl url.data
  let u := removeUnsafe u
  let u := stripScheme u
  let u := stripNetloc u
  let u := u.takeWhile (· != '#')
  let u := u.takeWhile (· != '?')
  splitParams u

/-- Model of `os.path.basename`: the part after the last `/` (posix). -/
def afterLastSlash (l : List Char) : List Char :=
  (l.reverse.takeWhile (· != '/')).reverse

/-! ### utils.py: guess_filename -/

/-- Dictionary lookup on the header mapping (keys are unique). -/
def hget (headers : List (String × String)) (k : String) : Option String :=
  (headers.find? (fun kv => kv.1 == k)).map (fun kv => kv.2)

/-- The Content-Disposition value that survives Python's
`headers.get('Content-Disposition') or headers.get('content-disposition')`
followed by the `if cd:` truthiness test. -/
def pyHeaderCD (headers : List (String × String)) : Option String :=
  if headers.isEmpty then none
  else
    let a := hget headers ("Content-Disposition")
    let b := hget headers ("content-disposition")
    let cd := match a with
      | some v => if v = ("") then b else some v
      | none => b
    match cd with
    | some v => if v = ("") then none else some v
    | none => none

/-- Branches 2 and 3 of `guess_filename`: last URL path segment, or the
caller-supplied default when the path yields no name. -/
def urlDerivedName (url : String) (dflt : String) : String :=
  let name := afterLastSlash (urlparsePath url)
  if name.isEmpty then dflt else sanitize_filename ⟨unquoteList name⟩

/-- utils.py `guess_filename`: Content-Disposition filename first, then
the last URL path segment, then the default. -/
def guess_filename (url : String) (headers : List (String × String))
    (dflt : String) : String :=
  match pyHeaderCD headers with
  | some cd =>
    match searchFilename cd.data with
    | some cand =>
      if cand.isEmpty then urlDerivedName url dflt
      else sanitize_filename ⟨unquoteList cand⟩
    | none => urlDerivedName url dflt
  | none => urlDerivedName url dflt

/-! ### utils.py: dedupe_path

Paths are strings; the filesystem is the list of existing path names.
`pathlib`'s stem/suffix split the final component at its last interior
dot; `parent / newname` re-attaches the directory part. -/

/-- Directory part including the trailing slash (empty when the path has
no slash, matching `Path(name).parent / x == Path(x)`). -/
def pathDirWithSep (p : List Char) : List Char :=
  (p.reverse.dropWhile (· != '/')).reverse

/-- Model of `pathlib.PurePath.stem` on a final component. -/
def pathStem (name : List Char) : List Char :=
  match rfindIdx name '.' with
  | some i => if 0 < i ∧ i < name.length - 1 then name.take i else name
  | none => name

/-- Model of `pathlib.PurePath.suffix` on a final component. -/
def pathSuffix (name : List Char) : List Char :=
  match rfindIdx name '.' with
  | some i => if 0 < i ∧ i < name.length - 1 then name.drop i else []
  | none => []

/-- The candidate `parent / f"{stem}({i}){suffix}"` tried by `dedupe_path`. -/
def dedupeCandidate (p : String) (i : Nat) : String :=
  ⟨pathDirWithSep p.data ++ pathStem (afterLastSlash p.data) ++
    '(' :: (Nat.repr i).data ++ ')' :: pathSuffix (afterLastSlash p.data)⟩

/-- The `while True` search of `dedupe_path`, run on explicit fuel.
`fs.length + 1` units of fuel always suffice (proved below), so the
fuel-exhausted branch is unreachable in `dedupe_path`. -/
def dedupeLoop (fs : List String) (p : String) : Nat → Nat → String
  | i, 0 => dedupeCandidate p i
  | i, fuel + 1 =>
    if dedupeCandidate p i ∈ fs then dedupeLoop fs p (i + 1) fuel
    else dedupeCandidate p i

/-- utils.py `dedupe_path`: the path itself when it does not exist, else
the first free `stem(i)suffix` candidate, `i = 1, 2, 3, ...`. -/
def dedupe_path (fs : List String) (p : String) : String :=
  if p ∈ fs then dedupeLoop fs p 1 (fs.length + 1) else p

/-! ### rate_limiter.py: token bucket

Floats are modelled as rationals; `time.perf_counter()` readings are
explicit rational arguments.  Concurrency is serialized by the condition
lock in the source, so the state transitions compose sequentially. -/

/-- The mutable fields of a `RateLimiter` (rate and capacity are fixed
after construction but kept in the state record). -/
structure RateLimiterState where
  rate : ℚ
  capacity : ℚ
  tokens : ℚ
  last : ℚ
deriving Repr, DecidableEq

/-- rate_limiter.py `_refill`: add `elapsed * rate` tokens, capped at
capacity; a non-positive elapsed time changes nothing. -/
def RateLimiterState.refill (s : RateLimiterState) (now : ℚ) : RateLimiterState :=
  let elapsed := now - s.last
  if elapsed ≤ 0 then s
  else { s with last := now, tokens := min s.capacity (s.tokens + elapsed * s.rate) }

/-- rate_limiter.py `try_acquire`: refill, then consume one token exactly
when at least one is present. -/
def RateLimiterState.try_acquire (s : RateLimiterState) (now : ℚ) :
    Bool × RateLimiterState :=
  let s' := s.refill now
  if s'.tokens ≥ 1 then (true, { s' with tokens := s'.tokens - 1 })
  else (false, s')

/-- rate_limiter.py `acquire`: the blocking loop, with the successive
`time.perf_counter()` readings supplied by `times` and the unbounded wait
cut off by explicit fuel (`none` = still waiting). -/
def acquireLoop (times : Nat → ℚ) : RateLimiterState → Nat → Nat → Option RateLimiterState
  | _, _, 0 => none
  | s, k, fuel + 1 =>
    let s' := s.refill (times k)
    if s'.tokens ≥ 1 then some { s' with tokens := s'.tokens - 1 }
    else acquireLoop times s' (k + 1) fuel

/-- rate_limiter.py `__init__`: `rate <= 0` raises ValueError; otherwise
capacity defaults to rate and the bucket starts full. -/
def RateLimiter.init (rate : ℚ) (capacity : Option ℚ) (now : ℚ) :
    Except String RateLimiterState :=
  if rate ≤ 0 then Except.error ("rate must be > 0 (tokens per second)")
  else
    let cap := capacity.getD rate
    Except.ok { rate := rate, capacity := cap, tokens := cap, last := now }

/-- downloader.py line 78: the manager builds its single shared limiter
with `capacity = max(rate, 1.0)`. -/
def DownloadManager.initLimiter (rate : ℚ) (now : ℚ) :
    Except String RateLimiterState :=
  RateLimiter.init rate (some (max rate 1)) now

/-! ### downloader.py: backoff computation -/

/-- Python `random.uniform(a, b)` is `a + (b - a) * u` for a draw `u` of
`random.random()` in `[0, 1]`. -/
def pyUniform (a b u : ℚ) : ℚ := a + (b - a) * u

/-- downloader.py `_sleep_backoff`, returning the slept delay: a server
`Retry-After` value is honored exactly; otherwise exponential backoff
`0.5 * 2^(attempt-1)` plus a jitter drawn uniformly from a quarter of the
delay, capped at 10 seconds. -/
def sleep_backoff_delay (attempt : Nat) (retry_after : Option ℚ) (u : ℚ) : ℚ :=
  match retry_after with
  | some ra => ra
  | none =>
    let base : ℚ := 1/2
    let delay := base * 2 ^ (attempt - 1)
    let delay := delay + pyUniform 0 (1/4 * delay) u
    min delay 10

/-! ### downloader.py: Result, configuration, environment -/

/-- downloader.py `Result`: the outcome record for one URL. -/
structure Result where
  url : String
  ok : Bool
  path : Option String
  status : Option Nat
  attempts : Nat
  error : Option String
deriving Repr, DecidableEq

/-- The constructor arguments of `DownloadManager` that influence the
modelled observables (concurrency, timeout, user_agent and verbose only
affect scheduling, sockets and logging).  `retries` is a Python int and
may be negative. -/
structure Config where
  output_dir : String
  rate : ℚ
  retries : Int
  no_clobber : Bool
deriving Repr

/-- What one HTTP attempt does, as seen by `_download_one`'s
try/except: `urlopen` + streaming succeed, or an `HTTPError`, a
non-HTTP `URLError`, or any other exception is raised.  (The
`Retry-After` header only influences the sleep duration, modelled
separately by `sleep_backoff_delay`.) -/
inductive Outcome where
  | success (status : Nat) (headers : List (String × String))
  | httpError (code : Nat) (reason : String)
  | urlError (reason : String)
  | otherError (ename : String) (emsg : String)
deriving Repr, DecidableEq

/-- Per-URL environment: the filesystem snapshot used for no-clobber
de-duplication, and the oracle giving each attempt's outcome. -/
structure Env where
  fs : List String
  outcome : Nat → Outcome

/-- Joining `Path(output_dir) / fname` for a single separator-free
component, as pathlib does: a bare `.` component is dropped (the joined
path then names the output directory itself), while any other component,
`..` included, is appended after a slash.  `fname` here is never empty
(guess_filename always returns a nonempty name), so pathlib's dropping
of empty parts needs no case. -/
def pyPathJoin (dir fname : String) : String :=
  if fname = (".") then dir else dir ++ ("/") ++ fname

/-- The claim's notion of the destination being a direct child of the
output directory: the directory, a separator, and exactly one real
component — nonempty, containing no separator, and not the special
names `.` and `..` (which pathlib treats as the directory itself and
its parent). -/
def isDirectChild (dir child : String) : Prop :=
  ∃ n : String, n ≠ ("") ∧ (('/') ∉ n.data) ∧ n ≠ (".") ∧ n ≠ ("..") ∧
    child = dir ++ ("/") ++ n

/-- downloader.py lines 146-149: choose the output path from the response
headers, deduplicating when no_clobber is set. -/
def resolveOutPath (cfg : Config) (env : Env) (url : String)
    (hdrs : List (String × String)) : String :=
  let fname := guess_filename url hdrs ("download")
  let out := pyPathJoin cfg.output_dir fname
  if cfg.no_clobber then dedupe_path env.fs out else out

/-- downloader.py table of retriable HTTP status codes (line 24). -/
def RETRIABLE_STATUS : List Nat := [429, 500, 502, 503, 504]

/-- The `while attempts <= self.retries` loop of `_download_one`.
`attempts` is the count of attempts already made; each iteration
increments it, performs the request, and on error either continues
(retriable and budget remains) or breaks with the last status/error.
Termination: each retry re-enters with a strictly smaller remaining
budget `retries + 1 - attempts`. -/
def downloadOneLoop (cfg : Config) (env : Env) (url : String) :
    Nat → Option Nat → Option String → Result
  | attempts, lastStatus, lastErr =>
    if h : (attempts : Int) ≤ cfg.retries then
      match env.outcome (attempts + 1) with
      | Outcome.success st hdrs =>
        { url := url, ok := true, path := some (resolveOutPath cfg env url hdrs),
          status := some st, attempts := attempts + 1, error := none }
      | Outcome.httpError code reason =>
        if hr : code ∈ RETRIABLE_STATUS ∧ ((attempts + 1 : Nat) : Int) ≤ cfg.retries then
          downloadOneLoop cfg env url (attempts + 1) (some code) lastErr
        else
          { url := url, ok := false, path := none, status := some code,
            attempts := attempts + 1,
            error := some (("HTTPError ") ++ Nat.repr code ++ (": ") ++ reason) }
      | Outcome.urlError reason =>
        if ((attempts + 1 : Nat) : Int) ≤ cfg.retries then
          downloadOneLoop cfg env url (attempts + 1) lastStatus
            (some (("URLError: ") ++ reason))
        else
          { url := url, ok := false, path := none, status := lastStatus,
            attempts := attempts + 1, error := some (("URLError: ") ++ reason) }
      | Outcome.otherError en em =>
        if ((attempts + 1 : Nat) : Int) ≤ cfg.retries then
          downloadOneLoop cfg env url (attempts + 1) lastStatus
            (some (en ++ (": ") ++ em))
        else
          { url := url, ok := false, path := none, status := lastStatus,
            attempts := attempts + 1, error := some (en ++ (": ") ++ em) }
    else
      { url := url, ok := false, path := none, status := lastStatus,
        attempts := attempts, error := lastErr }
termination_by a _ _ => (cfg.retries + 1 - a).toNat
decreasing_by all_goals omega

/-- downloader.py `_download_one`: run the retry loop from a fresh
attempt state (`attempts = 0`, no last status, no last error).  Every
exception inside an attempt is caught by the loop, so the function is
total: it always produces a `Result`. -/
def download_one (cfg : Config) (env : Env) (url : String) : Result :=
  downloadOneLoop cfg env url 0 none none

/-- downloader.py `download_many`: one task is submitted per URL and the
results are appended in completion order.  The completion order is an
arbitrary enumeration `sched` of the task indices (as_completed yields
every submitted future exactly once, which is the hypothesis
`sched.Nodup ∧ sched.length = urls.length` of the claims below). -/
def download_many (cfg : Config) (envOf : String → Env) (urls : List String)
    (sched : List (Fin urls.length)) : List Result :=
  sched.map (fun i => download_one cfg (envOf (urls.get i)) (urls.get i))

/-! ### Basic facts about the retry loop -/

/-- The loop returns a Result for the requested URL, never loses the
attempt count already made, adds at most the remaining budget, and makes
at least one more attempt whenever the budget admits one. -/
theorem downloadOneLoop_basic (cfg : Config) (env : Env) (url : String)
    (a : Nat) (s : Option Nat) (e : Option String) :
    (downloadOneLoop cfg env url a s e).url = url ∧
    a ≤ (downloadOneLoop cfg env url a s e).attempts ∧
    (downloadOneLoop cfg env url a s e).attempts ≤ a + (cfg.retries + 1 - (a : Int)).toNat ∧
    ((a : Int) ≤ cfg.retries → a + 1 ≤ (downloadOneLoop cfg env url a s e).attempts) := by
  induction a, s, e using downloadOneLoop.induct cfg env url with
  | case1 a s e h st hdrs hout =>
    rw [downloadOneLoop.eq_def]; simp [h, hout]; omega
  | case2 a s e h code reason hout hr ih =>
    obtain ⟨i1, i2, i3, i4⟩ := ih
    have hb : ((a : Int) + 1) ≤ cfg.retries := by exact_mod_cast hr.2
    rw [downloadOneLoop.eq_def]; simp [h, hout, hr.1, hb, i1]
    omega
  | case3 a s e h code reason hout hr =>
    have hr' : ¬(code ∈ RETRIABLE_STATUS ∧ ((a : Int) + 1) ≤ cfg.retries) := by
      intro hcon; exact hr ⟨hcon.1, by exact_mod_cast hcon.2⟩
    rw [downloadOneLoop.eq_def]; simp [h, hout, hr']
    omega
  | case4 a s e h reason hout hb ih =>
    obtain ⟨i1, i2, i3, i4⟩ := ih
    have hb' : ((a : Int) + 1) ≤ cfg.retries := by exact_mod_cast hb
    rw [downloadOneLoop.eq_def]; simp [h, hout, hb', i1]
    omega
  | case5 a s e h reason hout hb =>
    have hb' : ¬((a : Int) + 1) ≤ cfg.retries := by
      intro hcon; exact hb (by exact_mod_cast hcon)
    rw [downloadOneLoop.eq_def]; simp [h, hout, hb']
    omega
  | case6 a s e h en em hout hb ih =>
    obtain ⟨i1, i2, i3, i4⟩ := ih
    have hb' : ((a : Int) + 1) ≤ cfg.retries := by exact_mod_cast hb
    rw [downloadOneLoop.eq_def]; simp [h, hout, hb', i1]
    omega
  | case7 a s e h en em hout hb =>
    have hb' : ¬((a : Int) + 1) ≤ cfg.retries := by
      intro hcon; exact hb (by exact_mod_cast hcon)
    rw [downloadOneLoop.eq_def]; simp [h, hout, hb']
    omega
  | case8 a s e h =>
    rw [downloadOneLoop.eq_def]; simp [h]
    try omega

/-- Unfolding the loop one step on a successful attempt. -/
theorem downloadOneLoop_step_success (cfg : Config) (env : Env) (url : String)
    (a : Nat) (s : Option Nat) (e : Option String) (st : Nat)
    (hdrs : List (String × String))
    (h : (a : Int) ≤ cfg.retries)
    (hout : env.outcome (a + 1) = Outcome.success st hdrs) :
    downloadOneLoop cfg env url a s e =
      { url := url, ok := true, path := some (resolveOutPath cfg env url hdrs),
        status := some st, attempts := a + 1, error := none } := by
  rw [downloadOneLoop.eq_def]; simp [h, hout]

/-- Unfolding the loop one step on a retriable HTTP error within budget. -/
theorem downloadOneLoop_step_http_retry (cfg : Config) (env : Env) (url : String)
    (a : Nat) (s : Option Nat) (e : Option String) (code : Nat) (reason : String)
    (h : (a : Int) ≤ cfg.retries)
    (hout : env.outcome (a + 1) = Outcome.httpError code reason)
    (hr : code ∈ RETRIABLE_STATUS) (hb : ((a + 1 : Nat) : Int) ≤ cfg.retries) :
    downloadOneLoop cfg env url a s e =
      downloadOneLoop cfg env url (a + 1) (some code) e := by
  have hb' : ((a : Int) + 1) ≤ cfg.retries := by exact_mod_cast hb
  rw [downloadOneLoop.eq_def]; simp [h, hout, hr, hb']

/-- Unfolding the loop one step on an HTTP error that is non-retriable or
out of budget: the loop breaks with the error's status and message. -/
theorem downloadOneLoop_step_http_stop (cfg : Config) (env : Env) (url : String)
    (a : Nat) (s : Option Nat) (e : Option String) (code : Nat) (reason : String)
    (h : (a : Int) ≤ cfg.retries)
    (hout : env.outcome (a + 1) = Outcome.httpError code reason)
    (hr : ¬(code ∈ RETRIABLE_STATUS ∧ ((a + 1 : Nat) : Int) ≤ cfg.retries)) :
    downloadOneLoop cfg env url a s e =
      { url := url, ok := false, path := none, status := some code,
        attempts := a + 1,
        error := some (("HTTPError ") ++ Nat.repr code ++ (": ") ++ reason) } := by
  have hr' : ¬(code ∈ RETRIABLE_STATUS ∧ ((a : Int) + 1) ≤ cfg.retries) := by
    intro hcon; exact hr ⟨hcon.1, by exact_mod_cast hcon.2⟩
  rw [downloadOneLoop.eq_def]; simp [h, hout, hr']

/-- Unfolding the loop one step on a network error within budget. -/
theorem downloadOneLoop_step_url_retry (cfg : Config) (env : Env) (url : String)
    (a : Nat) (s : Option Nat) (e : Option String) (reason : String)
    (h : (a : Int) ≤ cfg.retries)
    (hout : env.outcome (a + 1) = Outcome.urlError reason)
    (hb : ((a + 1 : Nat) : Int) ≤ cfg.retries) :
    downloadOneLoop cfg env url a s e =
      downloadOneLoop cfg env url (a + 1) s (some (("URLError: ") ++ reason)) := by
  have hb' : ((a : Int) + 1) ≤ cfg.retries := by exact_mod_cast hb
  rw [downloadOneLoop.eq_def]; simp [h, hout, hb']

/-- Unfolding the loop one step on a network error out of budget. -/
theorem downloadOneLoop_step_url_stop (cfg : Config) (env : Env) (url : String)
    (a : Nat) (s : Option Nat) (e : Option String) (reason : String)
    (h : (a : Int) ≤ cfg.retries)
    (hout : env.outcome (a + 1) = Outcome.urlError reason)
    (hb : ¬((a + 1 : Nat) : Int) ≤ cfg.retries) :
    downloadOneLoop cfg env url a s e =
      { url := url, ok := false, path := none, status := s,
        attempts := a + 1, error := some (("URLError: ") ++ reason) } := by
  have hb' : ¬((a : Int) + 1) ≤ cfg.retries := by
    intro hcon; exact hb (by exact_mod_cast hcon)
  rw [downloadOneLoop.eq_def]; simp [h, hout, hb']

/-- Unfolding the loop one step on an unexpected exception within budget. -/
theorem downloadOneLoop_step_other_retry (cfg : Config) (env : Env) (url : String)
    (a : Nat) (s : Option Nat) (e : Option String) (en em : String)
    (h : (a : Int) ≤ cfg.retries)
    (hout : env.outcome (a + 1) = Outcome.otherError en em)
    (hb : ((a + 1 : Nat) : Int) ≤ cfg.retries) :
    downloadOneLoop cfg env url a s e =
      downloadOneLoop cfg env url (a + 1) s (some (en ++ (": ") ++ em)) := by
  have hb' : ((a : Int) + 1) ≤ cfg.retries := by exact_mod_cast hb
  rw [downloadOneLoop.eq_def]; simp [h, hout, hb']

/-- Unfolding the loop when the budget is already exhausted: the loop
body never runs and the carried state is reported. -/
theorem downloadOneLoop_step_done (cfg : Config) (env : Env) (url : String)
    (a : Nat) (s : Option Nat) (e : Option String)
    (h : ¬(a : Int) ≤ cfg.retries) :
    downloadOneLoop cfg env url a s e =
      { url := url, ok := false, path := none, status := s,
        attempts := a, error := e } := by
  rw [downloadOneLoop.eq_def]; simp [h]

/-- Against an endpoint that always answers with the same retriable HTTP
error, the loop burns the whole budget and reports that error after
exactly `retries + 1` attempts. -/
theorem downloadOneLoop_const_http (cfg : Config) (env : Env) (url : String)
    (code : Nat) (reason : String)
    (hc : code ∈ RETRIABLE_STATUS)
    (hout : ∀ n, env.outcome n = Outcome.httpError code reason)
    (a : Nat) (s : Option Nat) (e : Option String) :
    (a : Int) ≤ cfg.retries →
    downloadOneLoop cfg env url a s e =
      { url := url, ok := false, path := none, status := some code,
        attempts := (cfg.retries + 1).toNat,
        error := some (("HTTPError ") ++ Nat.repr code ++ (": ") ++ reason) } := by
  induction a, s, e using downloadOneLoop.induct cfg env url with
  | case1 a s e h st hdrs hout1 =>
    intro ha; rw [hout (a + 1)] at hout1; exact absurd hout1 (by simp)
  | case2 a s e h code1 reason1 hout1 hr ih =>
    intro ha
    rw [hout (a + 1)] at hout1
    injection hout1 with h1 h2
    subst h1; subst h2
    rw [downloadOneLoop_step_http_retry cfg env url a s e code reason h (hout (a + 1)) hc hr.2]
    exact ih hr.2
  | case3 a s e h code1 reason1 hout1 hr =>
    intro ha
    rw [hout (a + 1)] at hout1
    injection hout1 with h1 h2
    subst h1; subst h2
    rw [downloadOneLoop_step_http_stop cfg env url a s e code reason h (hout (a + 1)) hr]
    have hb : ¬((a + 1 : Nat) : Int) ≤ cfg.retries := fun hcon => hr ⟨hc, hcon⟩
    have hat : (cfg.retries + 1).toNat = a + 1 := by omega
    rw [hat]
  | case4 a s e h reason1 hout1 hb ih =>
    intro ha; rw [hout (a + 1)] at hout1; exact absurd hout1 (by simp)
  | case5 a s e h reason1 hout1 hb =>
    intro ha; rw [hout (a + 1)] at hout1; exact absurd hout1 (by simp)
  | case6 a s e h en em hout1 hb ih =>
    intro ha; rw [hout (a + 1)] at hout1; exact absurd hout1 (by simp)
  | case7 a s e h en em hout1 hb =>
    intro ha; rw [hout (a + 1)] at hout1; exact absurd hout1 (by simp)
  | case8 a s e h => intro ha; exact absurd ha h

/-! ### Token bucket lemmas -/

/-- Refilling keeps the token count within `[0, capacity]` and leaves
rate and capacity unchanged. -/
theorem refill_bounds (s : RateLimiterState) (now : ℚ)
    (h0 : 0 ≤ s.tokens) (h1 : s.tokens ≤ s.capacity) (hr : 0 ≤ s.rate) :
    0 ≤ (s.refill now).tokens ∧ (s.refill now).tokens ≤ (s.refill now).capacity ∧
    (s.refill now).capacity = s.capacity ∧ (s.refill now).rate = s.rate := by
  simp only [RateLimiterState.refill]
  split
  · exact ⟨h0, h1, rfl, rfl⟩
  · rename_i hel
    refine ⟨?_, ?_, rfl, rfl⟩
    · refine le_min (le_trans h0 h1) ?_
      have hm : 0 ≤ (now - s.last) * s.rate := mul_nonneg (by linarith) hr
      linarith
    · exact min_le_left _ _

/-- The blocking acquire loop preserves the token invariant whatever the
wake-up times are. -/
theorem acquireLoop_bounds (times : Nat → ℚ) :
    ∀ (fuel : Nat) (s : RateLimiterState) (k : Nat) (s' : RateLimiterState),
      0 ≤ s.tokens → s.tokens ≤ s.capacity → 0 ≤ s.rate →
      acquireLoop times s k fuel = some s' →
      0 ≤ s'.tokens ∧ s'.tokens ≤ s'.capacity := by
  intro fuel
  induction fuel with
  | zero => intro s k s' _ _ _ h; simp [acquireLoop] at h
  | succ f ih =>
    intro s k s' h0 h1 hr hs
    obtain ⟨r0, r1, rc, rr⟩ := refill_bounds s (times k) h0 h1 hr
    simp only [acquireLoop] at hs
    by_cases ht : (s.refill (times k)).tokens ≥ 1
    · rw [if_pos ht] at hs
      obtain rfl : { s.refill (times k) with
          tokens := (s.refill (times k)).tokens - 1 } = s' := Option.some.inj hs
      constructor
      · simp; linarith
      · simp; linarith
    · rw [if_neg ht] at hs
      exact ih (s.refill (times k)) (k + 1) s' r0 r1 (rr ▸ hr) hs

/-- C5: the RateLimiter token count always stays in [0, capacity]: a
refill adds elapsed * rate but never exceeds capacity, and
acquire/try_acquire subtract exactly one token only when at least one
token is present, so the count never becomes negative. -/
theorem C5_token_invariant (s : RateLimiterState) (now : ℚ)
    (h0 : 0 ≤ s.tokens) (h1 : s.tokens ≤ s.capacity) (hr : 0 ≤ s.rate) :
    (0 ≤ (s.refill now).tokens ∧ (s.refill now).tokens ≤ s.capacity) ∧
    (0 ≤ (s.try_acquire now).2.tokens ∧
      (s.try_acquire now).2.tokens ≤ (s.try_acquire now).2.capacity) ∧
    ((s.try_acquire now).1 = true →
      (s.try_acquire now).2.tokens = (s.refill now).tokens - 1 ∧
      1 ≤ (s.refill now).tokens) ∧
    (∀ times k fuel s', acquireLoop times s k fuel = some s' →
      0 ≤ s'.tokens ∧ s'.tokens ≤ s'.capacity) := by
  obtain ⟨r0, r1, rc, rr⟩ := refill_bounds s now h0 h1 hr
  refine ⟨⟨r0, rc ▸ r1⟩, ?_, ?_, ?_⟩
  · simp only [RateLimiterState.try_acquire]
    by_cases ht : (s.refill now).tokens ≥ 1
    · rw [if_pos ht]
      constructor
      · simp; linarith
      · simp; linarith
    · rw [if_neg ht]
      exact ⟨r0, r1⟩
  · simp only [RateLimiterState.try_acquire]
    by_cases ht : (s.refill now).tokens ≥ 1
    · rw [if_pos ht]; intro _; exact ⟨rfl, ht⟩
    · rw [if_neg ht]; intro hfalse; cases hfalse
  · intro times k fuel s' hs
    exact acquireLoop_bounds times fuel s k s' h0 h1 hr hs

/-- Witness for C5 at a concrete bucket state. -/
theorem C5_token_invariant_witness :
    (0 ≤ ((⟨2, 2, 2, 0⟩ : RateLimiterState).refill 1).tokens ∧
      ((⟨2, 2, 2, 0⟩ : RateLimiterState).refill 1).tokens ≤
        (⟨2, 2, 2, 0⟩ : RateLimiterState).capacity) ∧
    (0 ≤ ((⟨2, 2, 2, 0⟩ : RateLimiterState).try_acquire 1).2.tokens ∧
      ((⟨2, 2, 2, 0⟩ : RateLimiterState).try_acquire 1).2.tokens ≤
        ((⟨2, 2, 2, 0⟩ : RateLimiterState).try_acquire 1).2.capacity) :=
  ⟨(C5_token_invariant ⟨2, 2, 2, 0⟩ 1 (by norm_num) (by norm_num) (by norm_num)).1,
    (C5_token_invariant ⟨2, 2, 2, 0⟩ 1 (by norm_num) (by norm_num) (by norm_num)).2.1⟩

/-- C6: RateLimiter construction fails exactly when rate is non-positive;
on success the bucket starts full with capacity defaulting to rate, and
the DownloadManager builds its shared limiter with capacity
max(rate, 1.0).  The failure is an error of the constructor itself,
surfaced before any download begins. -/
theorem C6_construction_validation (rate : ℚ) (capacity : Option ℚ) (now : ℚ) :
    ((∃ msg, RateLimiter.init rate capacity now = Except.error msg) ↔ rate ≤ 0) ∧
    (0 < rate → RateLimiter.init rate capacity now =
      Except.ok { rate := rate, capacity := capacity.getD rate,
                  tokens := capacity.getD rate, last := now }) ∧
    (0 < rate → DownloadManager.initLimiter rate now =
      Except.ok { rate := rate, capacity := max rate 1,
                  tokens := max rate 1, last := now }) ∧
    (rate ≤ 0 → ∃ msg, DownloadManager.initLimiter rate now = Except.error msg) := by
  refine ⟨⟨?_, ?_⟩, ?_, ?_, ?_⟩
  · rintro ⟨msg, hmsg⟩
    by_contra hpos
    rw [RateLimiter.init, if_neg hpos] at hmsg
    cases hmsg
  · intro hle
    exact ⟨_, by rw [RateLimiter.init, if_pos hle]⟩
  · intro hpos
    rw [RateLimiter.init, if_neg (not_le.mpr hpos)]
  · intro hpos
    rw [DownloadManager.initLimiter, RateLimiter.init, if_neg (not_le.mpr hpos)]
    rfl
  · intro hle
    exact ⟨_, by rw [DownloadManager.initLimiter, RateLimiter.init, if_pos hle]⟩

/-- Witness for C6 at rate 2. -/
theorem C6_construction_validation_witness :
    RateLimiter.init 2 none 0 =
      Except.ok { rate := 2, capacity := (none : Option ℚ).getD 2,
                  tokens := (none : Option ℚ).getD 2, last := 0 } ∧
    DownloadManager.initLimiter 2 0 =
      Except.ok { rate := 2, capacity := max 2 1, tokens := max 2 1, last := 0 } :=
  ⟨(C6_construction_validation 2 none 0).2.1 (by norm_num),
    (C6_construction_validation 2 none 0).2.2.1 (by norm_num)⟩

/-- C4: with no Retry-After the delay is `0.5 * 2^(attempt-1)` plus a
jitter drawn uniformly from `[0, 0.25 * (0.5 * 2^(attempt-1))]`, capped
at 10 seconds; a server-supplied Retry-After is honored exactly, with no
jitter and no cap. -/
theorem C4_backoff_formula (attempt : Nat) (u : ℚ)
    (ha : 1 ≤ attempt) (hu0 : 0 ≤ u) (hu1 : u ≤ 1) :
    (∀ ra : ℚ, sleep_backoff_delay attempt (some ra) u = ra) ∧
    (∃ j : ℚ, 0 ≤ j ∧ j ≤ (1/4) * ((1/2) * 2 ^ (attempt - 1)) ∧
      sleep_backoff_delay attempt none u =
        min (((1/2) * 2 ^ (attempt - 1)) + j) 10) := by
  constructor
  · intro ra; rfl
  · have hd : (0 : ℚ) ≤ (1/4) * ((1/2) * 2 ^ (attempt - 1)) := by positivity
    refine ⟨(1/4) * ((1/2) * 2 ^ (attempt - 1)) * u, ?_, ?_, ?_⟩
    · exact mul_nonneg hd hu0
    · calc (1/4) * ((1/2) * 2 ^ (attempt - 1)) * u
          ≤ (1/4) * ((1/2) * 2 ^ (attempt - 1)) * 1 := by
            exact mul_le_mul_of_nonneg_left hu1 hd
        _ = (1/4) * ((1/2) * 2 ^ (attempt - 1)) := by ring
    · simp only [sleep_backoff_delay, pyUniform]
      congr 1
      ring

/-- Witness for C4 at attempt 1 with a mid-range jitter draw. -/
theorem C4_backoff_formula_witness :
    (∀ ra : ℚ, sleep_backoff_delay 1 (some ra) (1/2) = ra) ∧
    (∃ j : ℚ, 0 ≤ j ∧ j ≤ (1/4) * ((1/2) * 2 ^ (1 - 1)) ∧
      sleep_backoff_delay 1 none (1/2) = min (((1/2) * 2 ^ (1 - 1)) + j) 10) :=
  C4_backoff_formula 1 (1/2) (by norm_num) (by norm_num) (by norm_num)

/-! ### Claims about the download loop and the coordinator -/

/-- C1: for every input URL list, download_many returns exactly one
Result per input URL — the multiset of result URLs is a permutation of
the inputs (no loss, no duplication), whatever the completion order and
however the individual fetches end.  `download_one` is total (every
per-attempt exception is converted into a Result), so the coordinator
never fails because one URL failed. -/
theorem C1_download_many_cardinality (cfg : Config) (envOf : String → Env)
    (urls : List String) (sched : List (Fin urls.length))
    (h1 : sched.Nodup) (h2 : sched.length = urls.length) :
    List.Perm ((download_many cfg envOf urls sched).map Result.url) urls ∧
    (download_many cfg envOf urls sched).length = urls.length ∧
    (∀ u : String,
      ((download_many cfg envOf urls sched).map Result.url).count u = urls.count u) := by
  have hmap : (download_many cfg envOf urls sched).map Result.url
      = sched.map (fun i => urls.get i) := by
    simp only [download_many, List.map_map]
    apply List.map_congr_left
    intro i _
    exact (downloadOneLoop_basic cfg (envOf (urls.get i)) (urls.get i) 0 none none).1
  have hsp : List.Perm sched (List.finRange urls.length) := by
    apply List.Subperm.perm_of_length_le
    · exact h1.subperm (fun _ hi => List.mem_finRange _)
    · simp [List.length_finRange, h2]
  have hperm : List.Perm ((download_many cfg envOf urls sched).map Result.url) urls := by
    rw [hmap]
    have hm := hsp.map (fun i => urls.get i)
    have hfr : (List.finRange urls.length).map (fun i => urls.get i) = urls :=
      List.finRange_map_get urls
    rw [hfr] at hm
    exact hm
  refine ⟨hperm, ?_, fun u => hperm.count_eq u⟩
  simp [download_many, h2]

/-- Witness for C1: two URLs collected in reversed completion order. -/
theorem C1_download_many_cardinality_witness :
    List.Perm ((download_many ⟨("downloads"), 5, 3, false⟩
        (fun _ => ⟨[], fun _ => Outcome.urlError ("boom")⟩)
        ([("a"), ("b")])
        ([⟨1, by decide⟩, ⟨0, by decide⟩])).map Result.url) ([("a"), ("b")]) ∧
    (download_many ⟨("downloads"), 5, 3, false⟩
        (fun _ => ⟨[], fun _ => Outcome.urlError ("boom")⟩)
        ([("a"), ("b")])
        ([⟨1, by decide⟩, ⟨0, by decide⟩])).length = ([("a"), ("b")] : List String).length ∧
    (∀ u : String,
      ((download_many ⟨("downloads"), 5, 3, false⟩
        (fun _ => ⟨[], fun _ => Outcome.urlError ("boom")⟩)
        ([("a"), ("b")])
        ([⟨1, by decide⟩, ⟨0, by decide⟩])).map Result.url).count u
        = ([("a"), ("b")] : List String).count u) :=
  C1_download_many_cardinality ⟨("downloads"), 5, 3, false⟩
    (fun _ => ⟨[], fun _ => Outcome.urlError ("boom")⟩)
    ([("a"), ("b")]) ([⟨1, by decide⟩, ⟨0, by decide⟩]) (by decide) (by decide)

/-- C2: each URL gets at most retries + 1 attempts; on budget exhaustion
the loop stops and reports the last status and error with ok = false;
and an endpoint failing twice with 503 before succeeding yields, with
retries at least 2, a Result with ok = true after exactly 3 attempts. -/
theorem C2_attempt_budget (cfg : Config) (env : Env) (url : String) :
    ((download_one cfg env url).attempts ≤ (cfg.retries + 1).toNat) ∧
    (-1 ≤ cfg.retries → ((download_one cfg env url).attempts : Int) ≤ cfg.retries + 1) ∧
    ((∀ n, env.outcome n = Outcome.httpError 503 ("Service Unavailable")) →
      0 ≤ cfg.retries →
      download_one cfg env url =
        { url := url, ok := false, path := none, status := some 503,
          attempts := (cfg.retries + 1).toNat,
          error := some ("HTTPError 503: Service Unavailable") }) ∧
    (∀ r1 r2 st hs,
      env.outcome 1 = Outcome.httpError 503 r1 →
      env.outcome 2 = Outcome.httpError 503 r2 →
      env.outcome 3 = Outcome.success st hs →
      2 ≤ cfg.retries →
      (download_one cfg env url).ok = true ∧ (download_one cfg env url).attempts = 3) := by
  have hb := downloadOneLoop_basic cfg env url 0 none none
  refine ⟨?_, ?_, ?_, ?_⟩
  · have := hb.2.2.1
    rw [download_one]
    omega
  · intro hneg
    have := hb.2.2.1
    rw [download_one]
    omega
  · intro hout hret
    rw [download_one,
      downloadOneLoop_const_http cfg env url 503 ("Service Unavailable") (by decide)
        hout 0 none none (by exact_mod_cast hret)]
    have hstr : ("HTTPError ") ++ Nat.repr 503 ++ (": ") ++ ("Service Unavailable")
        = ("HTTPError 503: Service Unavailable") := rfl
    rw [hstr]
  · intro r1 r2 st hs h1 h2 h3 hret
    have e1 : download_one cfg env url = downloadOneLoop cfg env url 1 (some 503) none := by
      rw [download_one]
      exact downloadOneLoop_step_http_retry cfg env url 0 none none 503 r1
        (by omega) h1 (by decide) (by omega)
    have e2 : downloadOneLoop cfg env url 1 (some 503) none
        = downloadOneLoop cfg env url 2 (some 503) none :=
      downloadOneLoop_step_http_retry cfg env url 1 (some 503) none 503 r2
        (by omega) h2 (by decide) (by omega)
    have e3 : downloadOneLoop cfg env url 2 (some 503) none =
        { url := url, ok := true, path := some (resolveOutPath cfg env url hs),
          status := some st, attempts := 3, error := none } :=
      downloadOneLoop_step_success cfg env url 2 (some 503) none st hs (by omega) h3
    rw [e1, e2, e3]
    exact ⟨rfl, rfl⟩

/-- Witness for C2: retries = 3 against an endpoint that 503s twice and
then succeeds. -/
theorem C2_attempt_budget_witness :
    (download_one ⟨("downloads"), 5, 3, false⟩
      ⟨[], fun n => if n = 1 then Outcome.httpError 503 ("a")
        else if n = 2 then Outcome.httpError 503 ("b")
        else Outcome.success 200 []⟩ ("http://e")).ok = true ∧
    (download_one ⟨("downloads"), 5, 3, false⟩
      ⟨[], fun n => if n = 1 then Outcome.httpError 503 ("a")
        else if n = 2 then Outcome.httpError 503 ("b")
        else Outcome.success 200 []⟩ ("http://e")).attempts = 3 :=
  (C2_attempt_budget ⟨("downloads"), 5, 3, false⟩
    ⟨[], fun n => if n = 1 then Outcome.httpError 503 ("a")
      else if n = 2 then Outcome.httpError 503 ("b")
      else Outcome.success 200 []⟩ ("http://e")).2.2.2
    ("a") ("b") 200 [] rfl rfl rfl (by norm_num)

/-- C3: a failed HTTP attempt is retried exactly when its status is in
{429, 500, 502, 503, 504} and budget remains; any other HTTP status
stops the loop at once with no further attempt; URLError and unexpected
exceptions are retried whenever budget remains and otherwise stop. -/
theorem C3_retry_classification (cfg : Config) (env : Env) (url : String) :
    (∀ code reason, env.outcome 1 = Outcome.httpError code reason →
      code ∉ RETRIABLE_STATUS → 0 ≤ cfg.retries →
      download_one cfg env url =
        { url := url, ok := false, path := none, status := some code, attempts := 1,
          error := some (("HTTPError ") ++ Nat.repr code ++ (": ") ++ reason) }) ∧
    (∀ code reason, env.outcome 1 = Outcome.httpError code reason →
      code ∈ RETRIABLE_STATUS → 1 ≤ cfg.retries →
      2 ≤ (download_one cfg env url).attempts) ∧
    (∀ code reason, env.outcome 1 = Outcome.httpError code reason →
      code ∈ RETRIABLE_STATUS → cfg.retries = 0 →
      download_one cfg env url =
        { url := url, ok := false, path := none, status := some code, attempts := 1,
          error := some (("HTTPError ") ++ Nat.repr code ++ (": ") ++ reason) }) ∧
    (∀ reason, env.outcome 1 = Outcome.urlError reason → 1 ≤ cfg.retries →
      2 ≤ (download_one cfg env url).attempts) ∧
    (∀ reason, env.outcome 1 = Outcome.urlError reason → cfg.retries = 0 →
      download_one cfg env url =
        { url := url, ok := false, path := none, status := none, attempts := 1,
          error := some (("URLError: ") ++ reason) }) ∧
    (∀ en em, env.outcome 1 = Outcome.otherError en em → 1 ≤ cfg.retries →
      2 ≤ (download_one cfg env url).attempts) := by
  refine ⟨?_, ?_, ?_, ?_, ?_, ?_⟩
  · intro code reason h1 hnr hret
    rw [download_one]
    exact downloadOneLoop_step_http_stop cfg env url 0 none none code reason
      (by omega) h1 (fun hcon => hnr hcon.1)
  · intro code reason h1 hr hret
    have e1 : download_one cfg env url = downloadOneLoop cfg env url 1 (some code) none := by
      rw [download_one]
      exact downloadOneLoop_step_http_retry cfg env url 0 none none code reason
        (by omega) h1 hr (by omega)
    rw [e1]
    exact (downloadOneLoop_basic cfg env url 1 (some code) none).2.2.2 (by omega)
  · intro code reason h1 hr hret
    rw [download_one]
    exact downloadOneLoop_step_http_stop cfg env url 0 none none code reason
      (by omega) h1 (fun hcon => by omega)
  · intro reason h1 hret
    have e1 : download_one cfg env url
        = downloadOneLoop cfg env url 1 none (some (("URLError: ") ++ reason)) := by
      rw [download_one]
      exact downloadOneLoop_step_url_retry cfg env url 0 none none reason
        (by omega) h1 (by omega)
    rw [e1]
    exact (downloadOneLoop_basic cfg env url 1 none
      (some (("URLError: ") ++ reason))).2.2.2 (by omega)
  · intro reason h1 hret
    rw [download_one]
    exact downloadOneLoop_step_url_stop cfg env url 0 none none reason
      (by omega) h1 (by omega)
  · intro en em h1 hret
    have e1 : download_one cfg env url
        = downloadOneLoop cfg env url 1 none (some (en ++ (": ") ++ em)) := by
      rw [download_one]
      exact downloadOneLoop_step_other_retry cfg env url 0 none none en em
        (by omega) h1 (by omega)
    rw [e1]
    exact (downloadOneLoop_basic cfg env url 1 none
      (some (en ++ (": ") ++ em))).2.2.2 (by omega)

/-- Witness for C3: a 404 stops the loop after one attempt. -/
theorem C3_retry_classification_witness :
    download_one ⟨("downloads"), 5, 3, false⟩
      ⟨[], fun _ => Outcome.httpError 404 ("Not Found")⟩ ("http://e") =
      { url := ("http://e"), ok := false, path := none, status := some 404,
        attempts := 1, error := some ("HTTPError 404: Not Found") } :=
  ((C3_retry_classification ⟨("downloads"), 5, 3, false⟩
      ⟨[], fun _ => Outcome.httpError 404 ("Not Found")⟩ ("http://e")).1
    404 ("Not Found") rfl (by decide) (by norm_num)).trans (by decide)

/-- C9 (amended): whenever the configured retries value is non-negative
(any configuration reachable without pathological negative retries),
every produced Result has attempts at least 1. -/
theorem C9_attempts_positive (cfg : Config) (env : Env) (url : String)
    (h : 0 ≤ cfg.retries) : 1 ≤ (download_one cfg env url).attempts := by
  rw [download_one]
  exact (downloadOneLoop_basic cfg env url 0 none none).2.2.2 (by exact_mod_cast h)

/-- Witness for the amended C9. -/
theorem C9_attempts_positive_witness :
    1 ≤ (download_one ⟨("downloads"), 5, 3, false⟩
      ⟨[], fun _ => Outcome.urlError ("boom")⟩ ("http://e")).attempts :=
  C9_attempts_positive ⟨("downloads"), 5, 3, false⟩
    ⟨[], fun _ => Outcome.urlError ("boom")⟩ ("http://e") (by norm_num)

/-- Counterexample to C9 as stated: the constructor accepts retries = -1
(neither DownloadManager.__init__ nor the CLI validates it), and then
the while-loop body never runs, producing a Result with attempts = 0. -/
theorem C9_counterexample :
    (download_one ⟨("downloads"), 5, -1, false⟩
      ⟨[], fun _ => Outcome.urlError ("boom")⟩ ("http://e")).attempts = 0 := by
  rw [download_one, downloadOneLoop_step_done]
  decide

/-! ### Decimal rendering facts (for the f-string in dedupe_path)

`f"{i}"` renders a Nat in decimal via `Nat.repr`; distinct numbers render
to distinct digit strings, which gives the pigeonhole argument that the
dedupe loop always finds a free candidate. -/

theorem digitChar_inj : ∀ a, a < 10 → ∀ b, b < 10 →
    Nat.digitChar a = Nat.digitChar b → a = b := by decide

theorem toDigitsCore_append (b : Nat) :
    ∀ (fuel n : Nat) (ds : List Char),
      Nat.toDigitsCore b fuel n ds = Nat.toDigitsCore b fuel n [] ++ ds := by
  intro fuel
  induction fuel with
  | zero => intro n ds; simp [Nat.toDigitsCore]
  | succ f ih =>
    intro n ds
    simp only [Nat.toDigitsCore]
    by_cases h : n / b = 0
    · simp [h]
    · rw [if_neg h, if_neg h, ih (n / b) (Nat.digitChar (n % b) :: ds),
        ih (n / b) [Nat.digitChar (n % b)]]
      simp

theorem toDigitsCore_fuel :
    ∀ (n f1 f2 : Nat), n < f1 → n < f2 →
      Nat.toDigitsCore 10 f1 n [] = Nat.toDigitsCore 10 f2 n [] := by
  intro n
  induction n using Nat.strong_induction_on with
  | _ n ih =>
    intro f1 f2 h1 h2
    match f1, f2 with
    | f1' + 1, f2' + 1 =>
      simp only [Nat.toDigitsCore]
      by_cases h : n / 10 = 0
      · simp [h]
      · rw [if_neg h, if_neg h,
          toDigitsCore_append 10 f1' (n / 10) [Nat.digitChar (n % 10)],
          toDigitsCore_append 10 f2' (n / 10) [Nat.digitChar (n % 10)]]
        have hlt : n / 10 < n := by omega
        congr 1
        exact ih (n / 10) hlt f1' f2' (by omega) (by omega)

theorem toDigits10_lt (n : Nat) (h : n < 10) :
    Nat.toDigits 10 n = [Nat.digitChar n] := by
  simp [Nat.toDigits, Nat.toDigitsCore, Nat.div_eq_of_lt h, Nat.mod_eq_of_lt h]

theorem toDigits10_ge (n : Nat) (h : 10 ≤ n) :
    Nat.toDigits 10 n = Nat.toDigits 10 (n / 10) ++ [Nat.digitChar (n % 10)] := by
  have hd : ¬ n / 10 = 0 := by omega
  simp only [Nat.toDigits, Nat.toDigitsCore]
  rw [if_neg hd, toDigitsCore_append 10 n (n / 10) [Nat.digitChar (n % 10)]]
  congr 1
  exact toDigitsCore_fuel (n / 10) n (n / 10 + 1) (by omega) (by omega)

theorem toDigits10_ne_nil (n : Nat) : Nat.toDigits 10 n ≠ [] := by
  by_cases h : n < 10
  · rw [toDigits10_lt n h]; simp
  · rw [toDigits10_ge n (by omega)]; simp

theorem toDigits10_injective :
    ∀ m n : Nat, Nat.toDigits 10 m = Nat.toDigits 10 n → m = n := by
  intro m
  induction m using Nat.strong_induction_on with
  | _ m ih =>
    intro n heq
    by_cases hm : m < 10 <;> by_cases hn : n < 10
    · rw [toDigits10_lt m hm, toDigits10_lt n hn] at heq
      injection heq with h1 _
      exact digitChar_inj m hm n hn h1
    · rw [toDigits10_lt m hm, toDigits10_ge n (by omega)] at heq
      have hlen := congrArg List.length heq
      cases h2 : Nat.toDigits 10 (n / 10) with
      | nil => exact absurd h2 (toDigits10_ne_nil (n / 10))
      | cons a l => rw [h2] at hlen; simp at hlen
    · rw [toDigits10_ge m (by omega), toDigits10_lt n hn] at heq
      have hlen := congrArg List.length heq
      cases h2 : Nat.toDigits 10 (m / 10) with
      | nil => exact absurd h2 (toDigits10_ne_nil (m / 10))
      | cons a l => rw [h2] at hlen; simp at hlen
    · rw [toDigits10_ge m (by omega), toDigits10_ge n (by omega)] at heq
      have hlen : (Nat.toDigits 10 (m / 10)).length = (Nat.toDigits 10 (n / 10)).length := by
        have hl := congrArg List.length heq
        simp at hl
        omega
      obtain ⟨h1, h2⟩ := List.append_inj heq hlen
      have hdiv : m / 10 = n / 10 := ih (m / 10) (by omega) (n / 10) h1
      injection h2 with h3 _
      have hmod : m % 10 = n % 10 :=
        digitChar_inj (m % 10) (by omega) (n % 10) (by omega) h3
      omega

theorem repr_data_injective (m n : Nat)
    (h : (Nat.repr m).data = (Nat.repr n).data) : m = n :=
  toDigits10_injective m n h

/-! ### dedupe_path: the loop always finds the first free candidate -/

theorem dedupeCandidate_injective (p : String) :
    Function.Injective (dedupeCandidate p) := by
  intro i j h
  have h' : (dedupeCandidate p i).data = (dedupeCandidate p j).data :=
    congrArg String.data h
  simp only [dedupeCandidate] at h'
  have hlen : (Nat.repr i).data.length = (Nat.repr j).data.length := by
    have hl := congrArg List.length h'
    simp only [List.length_append, List.length_cons] at hl
    omega
  have houter := List.append_inj h' (by
    simp only [List.length_append, List.length_cons, hlen])
  have hinner := List.append_cancel_left houter.1
  injection hinner with hh ht
  exact repr_data_injective i j ht

/-- Any window of `fs.length + 1` consecutive candidates contains one
that is not an existing path (pigeonhole via injectivity). -/
theorem exists_free_candidate (fs : List String) (p : String) (i : Nat) :
    ∃ k, k < fs.length + 1 ∧ dedupeCandidate p (i + k) ∉ fs := by
  by_contra hall
  push_neg at hall
  have hsub : (Finset.range (fs.length + 1)).image (fun k => dedupeCandidate p (i + k))
      ⊆ fs.toFinset := by
    intro x hx
    simp only [Finset.mem_image] at hx
    obtain ⟨k, hk, rfl⟩ := hx
    rw [List.mem_toFinset]
    exact hall k (Finset.mem_range.mp hk)
  have hinj : Function.Injective (fun k => dedupeCandidate p (i + k)) := by
    intro a b hab
    have := dedupeCandidate_injective p hab
    omega
  have hcard : fs.length + 1 ≤ fs.toFinset.card := by
    calc fs.length + 1
        = ((Finset.range (fs.length + 1)).image (fun k => dedupeCandidate p (i + k))).card := by
          rw [Finset.card_image_of_injective _ hinj, Finset.card_range]
      _ ≤ fs.toFinset.card := Finset.card_le_card hsub
  have hle := fs.toFinset_card_le
  omega

/-- The fuelled loop returns the first free candidate at or after `i`,
whenever one exists within the fuel. -/
theorem dedupeLoop_first_free (fs : List String) (p : String) :
    ∀ (fuel i : Nat), (∃ k, k < fuel ∧ dedupeCandidate p (i + k) ∉ fs) →
      ∃ k, k < fuel ∧ dedupeLoop fs p i fuel = dedupeCandidate p (i + k) ∧
        dedupeCandidate p (i + k) ∉ fs ∧
        ∀ m, m < k → dedupeCandidate p (i + m) ∈ fs := by
  intro fuel
  induction fuel with
  | zero =>
    intro i hex
    obtain ⟨k, hk, _⟩ := hex
    omega
  | succ f ih =>
    intro i hex
    by_cases hmem : dedupeCandidate p i ∈ fs
    · obtain ⟨k, hk, hfree⟩ := hex
      have hk0 : k ≠ 0 := by
        rintro rfl
        rw [Nat.add_zero] at hfree
        exact hfree hmem
      obtain ⟨k', rfl⟩ : ∃ k', k = k' + 1 := ⟨k - 1, by omega⟩
      have hex' : ∃ k2, k2 < f ∧ dedupeCandidate p ((i + 1) + k2) ∉ fs := by
        refine ⟨k', by omega, ?_⟩
        have harith : (i + 1) + k' = i + (k' + 1) := by omega
        rw [harith]
        exact hfree
      obtain ⟨k2, hk2, heq, hfree2, hleast⟩ := ih (i + 1) hex'
      refine ⟨k2 + 1, by omega, ?_, ?_, ?_⟩
      · simp only [dedupeLoop]
        rw [if_pos hmem, heq]
        congr 1
        omega
      · have harith : i + (k2 + 1) = (i + 1) + k2 := by omega
        rw [harith]
        exact hfree2
      · intro m hm
        cases m with
        | zero => rw [Nat.add_zero]; exact hmem
        | succ m' =>
          have harith : i + (m' + 1) = (i + 1) + m' := by omega
          rw [harith]
          exact hleast m' (by omega)
    · refine ⟨0, by omega, ?_, ?_, ?_⟩
      · simp only [dedupeLoop]
        rw [if_neg hmem, Nat.add_zero]
      · rw [Nat.add_zero]; exact hmem
      · intro m hm
        exact absurd hm (Nat.not_lt_zero m)

/-- C8: dedupe_path returns its input when no file exists there, and
otherwise the first free candidate `stem(i)suffix` for i = 1, 2, 3, ...;
on an existing file.txt it yields file(1).txt, and file(2).txt when that
also exists. -/
theorem C8_dedupe_first_free (fs : List String) (p : String) :
    (p ∉ fs → dedupe_path fs p = p) ∧
    (p ∈ fs → ∃ i, 1 ≤ i ∧ dedupe_path fs p = dedupeCandidate p i ∧
      dedupeCandidate p i ∉ fs ∧ (∀ j, 1 ≤ j → j < i → dedupeCandidate p j ∈ fs)) ∧
    dedupe_path ([("file.txt")]) ("file.txt") = ("file(1).txt") ∧
    dedupe_path ([("file.txt"), ("file(1).txt")]) ("file.txt") = ("file(2).txt") := by
  refine ⟨?_, ?_, by decide, by decide⟩
  · intro hmem
    rw [dedupe_path, if_neg hmem]
  · intro hmem
    rw [dedupe_path, if_pos hmem]
    obtain ⟨k, hk, heq, hfree, hleast⟩ :=
      dedupeLoop_first_free fs p (fs.length + 1) 1 (exists_free_candidate fs p 1)
    refine ⟨1 + k, by omega, heq, hfree, ?_⟩
    intro j hj1 hjlt
    have harith : j = 1 + (j - 1) := by omega
    rw [harith]
    exact hleast (j - 1) (by omega)

/-- Witness for C8 on concrete filesystems. -/
theorem C8_dedupe_first_free_witness :
    dedupe_path ([]) ("a.txt") = ("a.txt") ∧
    (∃ i, 1 ≤ i ∧ dedupe_path ([("file.txt")]) ("file.txt")
        = dedupeCandidate ("file.txt") i ∧
      dedupeCandidate ("file.txt") i ∉ ([("file.txt")] : List String) ∧
      (∀ j, 1 ≤ j → j < i →
        dedupeCandidate ("file.txt") j ∈ ([("file.txt")] : List String))) :=
  ⟨(C8_dedupe_first_free ([]) ("a.txt")).1 (by decide),
    (C8_dedupe_first_free ([("file.txt")]) ("file.txt")).2.1 (by decide)⟩

/-! ### Filename safety and precedence claims -/

/-- Whatever the input, `sanitize_filename` produces a nonempty name with
none of the Windows-illegal characters. -/
theorem sanitize_filename_safe (s : String) :
    (sanitize_filename s).data ≠ [] ∧
    ∀ c ∈ (sanitize_filename s).data, c ∉ BAD_CHARS := by
  simp only [sanitize_filename]
  by_cases hemp : (((pyStripList s.data).map replaceNL).map sanitizeChar).isEmpty
  · rw [if_pos hemp]
    exact ⟨by decide, by decide⟩
  · rw [if_neg hemp]
    constructor
    · intro hnil
      rw [List.isEmpty_iff] at hemp
      exact hemp hnil
    · intro c hc
      simp only [List.mem_map] at hc
      obtain ⟨x, hx, rfl⟩ := hc
      simp only [sanitizeChar]
      by_cases hxb : x ∈ BAD_CHARS
      · rw [if_pos hxb]; decide
      · rw [if_neg hxb]; exact hxb

theorem string_ne_empty_of_data {s : String} (h : s.data ≠ []) : s ≠ ("") := by
  intro heq
  rw [heq] at h
  exact h rfl

/-- The URL-derived fallback (with the fixed default) is also nonempty
and free of illegal characters. -/
theorem urlDerivedName_safe (url : String) :
    (urlDerivedName url ("download")).data ≠ [] ∧
    ∀ c ∈ (urlDerivedName url ("download")).data, c ∉ BAD_CHARS := by
  simp only [urlDerivedName]
  by_cases he : (afterLastSlash (urlparsePath url)).isEmpty
  · rw [if_pos he]
    exact ⟨by decide, by decide⟩
  · rw [if_neg he]
    exact sanitize_filename_safe ⟨unquoteList (afterLastSlash (urlparsePath url))⟩

/-- C10 (amended): for every URL that urlsplit accepts (no unmatched
bracket in the host — otherwise CPython raises inside the attempt and
no filename is derived at all) and every headers mapping, guess_filename
with its default fallback returns a non-empty string containing none of
the characters backslash / : * ? " < > | — in particular no separator —
and, unless that name is the pathlib-special `.` or `..`, the
destination obtained by joining it to the output directory is a direct
child of the output directory.  The dot names do occur (see the
counterexample): a URL path ending in `/.` or a server-controlled
Content-Disposition `filename=.` makes the joined path the output
directory itself, so the unconditional direct-child claim is false. -/
theorem C10_filename_always_safe (url : String) (headers : List (String × String))
    (hv : urlsplitInvalidIPv6 url = false) :
    guess_filename url headers ("download") ≠ ("") ∧
    (∀ c ∈ (guess_filename url headers ("download")).data, c ∉ BAD_CHARS) ∧
    (∀ dir : String,
      guess_filename url headers ("download") ≠ (".") →
      guess_filename url headers ("download") ≠ ("..") →
      isDirectChild dir (pyPathJoin dir (guess_filename url headers ("download")))) := by
  have hgoal : (guess_filename url headers ("download")).data ≠ [] ∧
      ∀ c ∈ (guess_filename url headers ("download")).data, c ∉ BAD_CHARS := by
    rw [guess_filename]
    split
    all_goals try split
    all_goals try split
    all_goals first
      | exact urlDerivedName_safe url
      | exact sanitize_filename_safe _
  refine ⟨string_ne_empty_of_data hgoal.1, hgoal.2, ?_⟩
  intro dir hdot hdotdot
  refine ⟨guess_filename url headers ("download"),
    string_ne_empty_of_data hgoal.1, ?_, hdot, hdotdot, ?_⟩
  · intro hsl
    exact hgoal.2 ('/') hsl (by decide)
  · rw [pyPathJoin, if_neg hdot]

/-- Witness for the amended C10: a URL with a percent-encoded slash
yields the separator-free direct child downloads/a_b.txt. -/
theorem C10_filename_always_safe_witness :
    guess_filename ("https://e.example/a%2Fb.txt") ([]) ("download") ≠ ("") ∧
    ('a') ∉ BAD_CHARS ∧
    isDirectChild ("downloads")
      (pyPathJoin ("downloads")
        (guess_filename ("https://e.example/a%2Fb.txt") ([]) ("download"))) :=
  ⟨(C10_filename_always_safe ("https://e.example/a%2Fb.txt") ([]) rfl).1,
    (C10_filename_always_safe ("https://e.example/a%2Fb.txt") ([]) rfl).2.1
      ('a') (by decide),
    (C10_filename_always_safe ("https://e.example/a%2Fb.txt") ([]) rfl).2.2
      ("downloads") (by decide) (by decide)⟩

/-- Counterexample to C10 as stated: both the URL path and a
server-controlled header can make guess_filename return `.`; pathlib
then collapses `Path("downloads") / "."` to the output directory itself,
which is not a direct child of it — and under no_clobber the pipeline
dedupes the existing directory into the sibling `downloads(1)`, outside
the output directory. -/
theorem C10_counterexample :
    guess_filename ("http://h/a/.") ([]) ("download") = (".") ∧
    guess_filename ("http://h/x")
      ([(("Content-Disposition"), ("attachment; filename=."))]) ("download") = (".") ∧
    pyPathJoin ("downloads") (guess_filename ("http://h/a/.") ([]) ("download"))
      = ("downloads") ∧
    resolveOutPath ⟨("downloads"), 5, 3, true⟩
      ⟨[("downloads")], fun _ => Outcome.urlError ("x")⟩ ("http://h/a/.") ([])
      = ("downloads(1)") ∧
    ¬ isDirectChild ("downloads")
      (pyPathJoin ("downloads") (guess_filename ("http://h/a/.") ([]) ("download"))) := by
  have hjoin : pyPathJoin ("downloads") (guess_filename ("http://h/a/.") ([]) ("download"))
      = ("downloads") := by decide
  refine ⟨by decide, by decide, hjoin, by decide, ?_⟩
  rw [hjoin]
  rintro ⟨n, hne, hns, hd1, hd2, heq⟩
  have hlen := congrArg String.length heq
  rw [String.length_append, String.length_append] at hlen
  have hone : (("/") : String).length = 1 := rfl
  omega

/-- C7: guess_filename prefers a Content-Disposition filename, then the
last URL path segment, then the default.  Concretely: the header
attachment; filename="report.pdf" yields report.pdf; without a header,
.../files/image.png yields image.png; an empty URL path yields the
fallback download. -/
theorem C7_guess_filename_precedence :
    guess_filename ("https://example.com/dl")
      ([(("Content-Disposition"), ("attachment; filename=\"report.pdf\""))])
      ("download") = ("report.pdf") ∧
    guess_filename ("https://example.com/files/image.png") ([]) ("download")
      = ("image.png") ∧
    guess_filename ("https://example.com") ([]) ("download") = ("download") ∧
    (∀ url headers dflt, pyHeaderCD headers = none →
      guess_filename url headers dflt = urlDerivedName url dflt) ∧
    (∀ url headers dflt cd cand, pyHeaderCD headers = some cd →
      searchFilename cd.data = some cand → cand.isEmpty = false →
      guess_filename url headers dflt = sanitize_filename ⟨unquoteList cand⟩) ∧
    (∀ url dflt, afterLastSlash (urlparsePath url) = [] →
      guess_filename url ([]) dflt = dflt) := by
  refine ⟨by decide, by decide, by decide, ?_, ?_, ?_⟩
  · intro url headers dflt hcd
    rw [guess_filename, hcd]
  · intro url headers dflt cd cand hcd hs hne
    rw [guess_filename, hcd]
    simp only [hs, hne, Bool.false_eq_true, if_false]
  · intro url dflt hname
    have hcd : pyHeaderCD ([]) = none := rfl
    rw [guess_filename, hcd]
    simp [urlDerivedName, hname]

/-- Witness for C7 exercising the header branch and the URL branch. -/
theorem C7_guess_filename_precedence_witness :
    guess_filename ("https://u.example/x") ([]) ("d")
      = urlDerivedName ("https://u.example/x") ("d") ∧
    guess_filename ("https://u.example/x")
        ([(("Content-Disposition"), ("filename=x.txt"))]) ("d")
      = sanitize_filename ⟨unquoteList ("x.txt").data⟩ ∧
    guess_filename ("https://example.com/files/image.png") ([]) ("download")
      = ("image.png") :=
  ⟨C7_guess_filename_precedence.2.2.2.1 ("https://u.example/x") ([]) ("d") rfl,
    C7_guess_filename_precedence.2.2.2.2.1 ("https://u.example/x")
      ([(("Content-Disposition"), ("filename=x.txt"))]) ("d")
      ("filename=x.txt") (("x.txt").data) rfl (by decide) (by decide),
    C7_guess_filename_precedence.2.1⟩


end Rlget
